import Mathlib

/-!
Verification of the strong-pubsub-bridge core (`src/index.js`) via a shallow
embedding in Lean 4.

The source is an event-driven JavaScript module.  We embed it as pure
functions producing *traces* of the calls the bridge makes on its two
collaborators (the upstream `client` and the downstream `connection`) and on
its own error emitter.  Asynchrony is embedded explicitly where the source
distinguishes it: `process.nextTick` deferral is recorded as a tick count on
the pipeline result.
-/

namespace PubsubBridge

/-- The four bridge actions (`Bridge.actions` in the source). -/
inductive Action where
  | connect
  | publish
  | subscribe
  | unsubscribe
deriving DecidableEq, Repr

/-- Error values are opaque; we model them as naturals. -/
abbrev Err := Nat

/-- The mutable per-invocation action context (`ctx` in the source).
`authorized` is `Option Bool` because the source tests `ctx.authorized === false`
with strict equality, which is false when the field is absent (`none`).
`reject` is tested for truthiness, so a `Bool` suffices.
`subscriptions`/`unsubscriptions` model the `ctx.subscriptions || ctx.topic`
falsy-fallback with `Option`. -/
structure Ctx where
  error : Option Err
  authorized : Option Bool
  reject : Bool
  topic : String
  message : String
  options : Nat
  subscriptions : Option String
  unsubscriptions : Option String
  clientId : String
deriving DecidableEq, Repr

/-- A default context: no error, no flags set. -/
def ctx0 : Ctx := ⟨none, none, false, "", "", 0, none, none, ""⟩

/-- One observable call made by the bridge on a collaborator, or an
emission on the bridge's own error event. -/
inductive Call where
  | clientPublish (topic message : String) (options : Nat)
  | clientSubscribe (arg : String) (options : Nat)
  | clientUnsubscribe (arg : String)
  | clientEnd
  | connAck (action : Action) (ctx : Ctx)
  | connOnError (action : Action) (ctx : Ctx) (err : Err)
  | connClose
  | connPublish (topic message : String) (options : Nat)
  | emitError (err : Err)
deriving DecidableEq, Repr

/-- Any operation on the upstream client (`client.publish/subscribe/unsubscribe/end`). -/
def isUpstreamOp : Call → Bool
  | .clientPublish _ _ _ => true
  | .clientSubscribe _ _ => true
  | .clientUnsubscribe _ => true
  | .clientEnd => true
  | _ => false

/-- An upstream dispatch proper (`client.publish/subscribe/unsubscribe`), excluding `end`. -/
def isDispatchOp : Call → Bool
  | .clientPublish _ _ _ => true
  | .clientSubscribe _ _ => true
  | .clientUnsubscribe _ => true
  | _ => false

def isClientEnd : Call → Bool
  | .clientEnd => true
  | _ => false

def isConnAck : Call → Bool
  | .connAck _ _ => true
  | _ => false

def isConnOnError : Call → Bool
  | .connOnError _ _ _ => true
  | _ => false

def isConnClose : Call → Bool
  | .connClose => true
  | _ => false

def isConnPublish : Call → Bool
  | .connPublish _ _ _ => true
  | _ => false

def isEmitError : Call → Bool
  | .emitError _ => true
  | _ => false

/-- The inner `done(err)` callback of the action handler
(`src/index.js` lines 99–114).  `err` is the upstream dispatch error, if any
(`done` is invoked with no argument, i.e. `none`, on the connect and
authorized/reject skip paths).  `ackErr` is the error, if any, that the
downstream `connection.ack` passes to its callback.

Source behavior: if `err` is present, emit it on the bridge error event and
call `client.end()`; in all cases call `connection.ack(action, ctx, cb)`;
in `cb`, if the ack failed, call `connection.close()` and emit the failure. -/
def done (action : Action) (ctx : Ctx) (err : Option Err) (ackErr : Option Err) :
    List Call :=
  (match err with
   | some e => [.emitError e, .clientEnd]
   | none => []) ++
  (.connAck action ctx ::
   (match ackErr with
    | some e => [.connClose, .emitError e]
    | none => []))

/-- The callback the action handler passes to `bridge.trigger`
(`src/index.js` lines 71–97), which receives the hook-pipeline outcome `err`.
It sets `ctx.error = err`, then:
* for `connect`, calls `done()` immediately (no upstream dispatch);
* otherwise, if `err` is present, calls `connection.onError(action, ctx, err)`
  and returns;
* otherwise, if `ctx.authorized === false || ctx.reject`, calls `done()`;
* otherwise dispatches the action on the upstream client with `done` as the
  completion callback.

`dispatchErr` is the error, if any, the upstream client passes to `done`;
`ackErr` is threaded to `done` as above. -/
def actionCb (action : Action) (ctx : Ctx) (err : Option Err)
    (dispatchErr : Option Err) (ackErr : Option Err) : List Call :=
  let c := { ctx with error := err }
  if action = .connect then
    done action c none ackErr
  else
    match err with
    | some e => [.connOnError action c e]
    | none =>
      if c.authorized = some false ∨ c.reject = true then
        done action c none ackErr
      else
        match action with
        | .publish =>
          .clientPublish c.topic c.message c.options :: done action c dispatchErr ackErr
        | .subscribe =>
          .clientSubscribe (c.subscriptions.getD c.topic) c.options ::
            done action c dispatchErr ackErr
        | .unsubscribe =>
          .clientUnsubscribe (c.unsubscriptions.getD c.topic) ::
            done action c dispatchErr ackErr
        | .connect => []

/-- A registered hook.  Source hooks are functions `(ctx, next)` that may
mutate `ctx` and then invoke the continuation `next` zero or more times, each
time with an optional error.  We model a (synchronous) hook as a function
returning the updated context together with the ordered list of arguments it
passes to `next`.  `id` tags the hook so invocation order is observable. -/
structure Hook where
  id : Nat
  run : Ctx → Ctx × List (Option Err)

/-- Result of executing the continuation machinery of `Bridge.prototype.trigger`:
final context, the ordered list of invocations of the completion callback `cb`
(with the error each received), and the ordered list of ids of the hooks that
were invoked. -/
structure ExecRes where
  ctx : Ctx
  cbs : List (Option Err)
  inv : List Nat
deriving DecidableEq, Repr

/-- The `next` machinery of `trigger` (`src/index.js` lines 210–216), embedded
operationally.  The source keeps a shared counter `cur`; `next(err)` invokes
`cb(err)` when `err` is present or `hooks[cur + 1]` does not exist, and
otherwise advances `cur` and invokes the following hook.  Here `pend` is the
list of hooks strictly after the current position (i.e. `hooks[cur+1..]`) and
`calls` is the queue of outstanding `next` invocations: a hook's own `next`
calls are processed, in order, against the shared, evolving position — exactly
the shared-`cur` semantics, including the absence of any single-use guard on
`next`. -/
def exec (pend : List Hook) (ctx : Ctx) (calls : List (Option Err)) : ExecRes :=
  match pend, calls with
  | _, [] => ⟨ctx, [], []⟩
  | [], e :: es =>
    let r := exec [] ctx es
    ⟨r.ctx, e :: r.cbs, r.inv⟩
  | h :: rest, e :: es =>
    match e with
    | some err =>
      let r := exec (h :: rest) ctx es
      ⟨r.ctx, some err :: r.cbs, r.inv⟩
    | none =>
      let r := exec rest (h.run ctx).1 ((h.run ctx).2 ++ es)
      ⟨r.ctx, r.cbs, h.id :: r.inv⟩
termination_by (pend.length, calls.length)

/-- Result of `Bridge.prototype.trigger`: `ticks` is the number of scheduler
yields (`process.nextTick`) interposed before the completion callback can run
(the source defers only in the no-hooks case); the other fields are as in
`ExecRes`.  `ticks = 0` means everything ran synchronously within the
triggering call. -/
structure TriggerRes where
  ticks : Nat
  ctx : Ctx
  cbs : List (Option Err)
  inv : List Nat
deriving DecidableEq, Repr

/-- `Bridge.prototype.trigger` (`src/index.js` lines 199–217) for a given
hook chain.  With no hooks it returns `process.nextTick(cb)` — the callback
fires once, with no error, after exactly one scheduling yield.  Otherwise it
synchronously invokes `hooks[0](ctx, next)` and runs the continuation
machinery. -/
def trigger (hooks : List Hook) (ctx : Ctx) : TriggerRes :=
  match hooks with
  | [] => ⟨1, ctx, [none], []⟩
  | h :: rest =>
    let r := exec rest (h.run ctx).1 (h.run ctx).2
    ⟨0, r.ctx, r.cbs, h.id :: r.inv⟩

/-- The bridge's hook registry (`this.hooks`), mapping each action to its
ordered list of registered hooks. -/
structure Bridge where
  hooks : Action → List Hook

/-- `Bridge.prototype.before` (`src/index.js` lines 189–197): append the hook
to the action's list (creating it if absent — absence is the empty list here). -/
def before (b : Bridge) (a : Action) (h : Hook) : Bridge :=
  ⟨fun x => if x = a then b.hooks x ++ [h] else b.hooks x⟩

/-- `trigger` as invoked on a bridge: look up the action's registered chain.
An action never registered has the empty list, matching the source's
`!numHooks` test accepting both `undefined` and `[]`. -/
def triggerOn (b : Bridge) (a : Action) (ctx : Ctx) : TriggerRes :=
  trigger (b.hooks a) ctx

/-- The upstream `message` listener installed by `connect`
(`src/index.js` lines 61–64): forward the triple to `connection.publish`,
unchanged.  The bridge state (hook registry included) is in scope in the
source closure, so it is a parameter here — the claims quantify over it. -/
def onMessage (_b : Bridge) (topic message : String) (options : Nat) : List Call :=
  [.connPublish topic message options]

/-- A well-behaved hook: mutates the context and calls `next` exactly once.
`toHook i f` wraps the one-shot behavior `f` as the hook with id `i`. -/
def toHook (i : Nat) (f : Ctx → Ctx × Option Err) : Hook :=
  ⟨i, fun c => ((f c).1, [(f c).2])⟩

/-- A chain of well-behaved hooks, with ids numbered from `k`. -/
def toHooks (k : Nat) : List (Ctx → Ctx × Option Err) → List Hook
  | [] => []
  | f :: fs => toHook k f :: toHooks (k + 1) fs

/-- Modelled from the spec's description of the hook chain as a driving loop
(§4.1, §9): run the hooks in registration order on the threaded context,
stopping at the first hook that supplies an error.  Returns the final
context, the completion error, and the number of hooks invoked. -/
def specChain : List (Ctx → Ctx × Option Err) → Ctx → Ctx × Option Err × Nat
  | [], c => (c, none, 0)
  | f :: fs, c =>
    match (f c).2 with
    | some e => ((f c).1, some e, 1)
    | none =>
      let r := specChain fs (f c).1
      (r.1, r.2.1, r.2.2 + 1)

/-! ## Claim theorems -/

/-- C1, counterexample: for a `publish` action whose hook pipeline completes
with an error, the handler calls only `connection.onError` — it performs no
downstream acknowledgement at all, contrary to the claim that the ack still
follows. -/
theorem c1_counterexample :
    actionCb .publish ctx0 (some 0) none none =
      [.connOnError .publish { ctx0 with error := some 0 } 0] ∧
    (actionCb .publish ctx0 (some 0) none none).countP isConnAck = 0 := by
  constructor <;> decide

/-- C1, amended: for every non-connect action whose hook pipeline completes
with an error, the handler routes the error to the downstream connection's
error handler (`onError` with that action, the context carrying the error, and
the error) and returns — the downstream acknowledgement is NOT invoked, nor is
anything else. -/
theorem c1_hook_error_only_onError (a : Action) (c : Ctx) (e : Err)
    (dE aE : Option Err) (ha : a ≠ .connect) :
    actionCb a c (some e) dE aE = [.connOnError a { c with error := some e } e] := by
  cases a with
  | connect => exact absurd rfl ha
  | publish => rfl
  | subscribe => rfl
  | unsubscribe => rfl

/-- C1 witness: the amended theorem applied at a concrete input. -/
theorem c1_hook_error_only_onError_witness :
    actionCb .subscribe ctx0 (some 7) (some 1) (some 2) =
      [.connOnError .subscribe { ctx0 with error := some 7 } 7] :=
  c1_hook_error_only_onError .subscribe ctx0 7 (some 1) (some 2) (by decide)

/-- C2: a `connect` action never dispatches any upstream client operation,
and the downstream acknowledgement is invoked (first) with the action and the
context, regardless of the hook outcome `err` or any context flags. -/
theorem c2_connect_never_dispatches (c : Ctx) (err dE aE : Option Err) :
    (actionCb .connect c err dE aE).countP isUpstreamOp = 0 ∧
    (actionCb .connect c err dE aE).countP isConnAck = 1 ∧
    (actionCb .connect c err dE aE).head? = some (.connAck .connect { c with error := err }) := by
  cases aE <;>
    simp [actionCb, done, isUpstreamOp, isConnAck]

/-- C3: a publish/subscribe/unsubscribe action whose pipeline completed
without error but whose context has `authorized === false` or truthy `reject`
performs no upstream client call at all (in particular no dispatch), and the
downstream acknowledgement is still invoked with that action and context. -/
theorem c3_blocked_no_dispatch (a : Action) (c : Ctx) (dE aE : Option Err)
    (ha : a ≠ .connect)
    (hb : c.authorized = some false ∨ c.reject = true) :
    (actionCb a c none dE aE).countP isDispatchOp = 0 ∧
    (actionCb a c none dE aE).countP isUpstreamOp = 0 ∧
    (actionCb a c none dE aE).countP isConnAck = 1 ∧
    (actionCb a c none dE aE).head? = some (.connAck a { c with error := none }) := by
  cases a with
  | connect => exact absurd rfl ha
  | publish =>
    rcases hb with h | h <;> cases aE <;>
      simp [actionCb, done, isDispatchOp, isUpstreamOp, isConnAck, h]
  | subscribe =>
    rcases hb with h | h <;> cases aE <;>
      simp [actionCb, done, isDispatchOp, isUpstreamOp, isConnAck, h]
  | unsubscribe =>
    rcases hb with h | h <;> cases aE <;>
      simp [actionCb, done, isDispatchOp, isUpstreamOp, isConnAck, h]

/-- C3 witness: a rejected publish at a concrete input. -/
theorem c3_blocked_no_dispatch_witness :
    (actionCb .publish { ctx0 with reject := true } none none none).countP isDispatchOp = 0 ∧
    (actionCb .publish { ctx0 with reject := true } none none none).countP isUpstreamOp = 0 ∧
    (actionCb .publish { ctx0 with reject := true } none none none).countP isConnAck = 1 ∧
    (actionCb .publish { ctx0 with reject := true } none none none).head? =
      some (.connAck .publish { ctx0 with reject := true, error := none }) :=
  c3_blocked_no_dispatch .publish { ctx0 with reject := true } none none
    (by decide) (Or.inr rfl)

/-- C5: a publish/subscribe/unsubscribe that reaches upstream dispatch and
whose dispatch callback receives an error produces exactly one upstream
dispatch call, then exactly one error emission with that error immediately
followed by exactly one forced `client.end()`, and afterwards exactly one
downstream acknowledgement attempt.  The total number of error emissions is
one, plus one more only if the acknowledgement itself also fails. -/
theorem c5_dispatch_error_flow (a : Action) (c : Ctx) (e : Err) (aE : Option Err)
    (ha : a ≠ .connect)
    (hauth : c.authorized ≠ some false) (hrej : c.reject ≠ true) :
    (actionCb a c none (some e) aE).countP isDispatchOp = 1 ∧
    (actionCb a c none (some e) aE).countP isClientEnd = 1 ∧
    (actionCb a c none (some e) aE).countP isConnAck = 1 ∧
    (actionCb a c none (some e) aE).countP isEmitError =
      1 + (if aE.isSome then 1 else 0) ∧
    ((actionCb a c none (some e) aE).drop 1).take 3 =
      [.emitError e, .clientEnd, .connAck a { c with error := none }] := by
  cases a with
  | connect => exact absurd rfl ha
  | publish =>
    cases aE <;>
      simp [actionCb, done, isDispatchOp, isClientEnd, isConnAck, isEmitError,
        hauth, hrej]
  | subscribe =>
    cases aE <;>
      simp [actionCb, done, isDispatchOp, isClientEnd, isConnAck, isEmitError,
        hauth, hrej]
  | unsubscribe =>
    cases aE <;>
      simp [actionCb, done, isDispatchOp, isClientEnd, isConnAck, isEmitError,
        hauth, hrej]

/-- C5 witness: a failing publish dispatch at a concrete input. -/
theorem c5_dispatch_error_flow_witness :
    (actionCb .publish ctx0 none (some 5) none).countP isDispatchOp = 1 ∧
    (actionCb .publish ctx0 none (some 5) none).countP isClientEnd = 1 ∧
    (actionCb .publish ctx0 none (some 5) none).countP isConnAck = 1 ∧
    (actionCb .publish ctx0 none (some 5) none).countP isEmitError =
      1 + (if (none : Option Err).isSome then 1 else 0) ∧
    ((actionCb .publish ctx0 none (some 5) none).drop 1).take 3 =
      [.emitError 5, .clientEnd, .connAck .publish { ctx0 with error := none }] :=
  c5_dispatch_error_flow .publish ctx0 5 none (by decide) (by decide) (by decide)

/-- C6: whenever the downstream acknowledgement callback receives an error,
`done` makes exactly one downstream close call and emits that error as its
final act; the total number of error emissions is one for the ack failure,
plus one more only if a dispatch error was also present.  Nothing follows the
close-and-emit pair: no recovery or retry. -/
theorem c6_ack_error_flow (a : Action) (c : Ctx) (dE : Option Err) (e : Err) :
    (done a c dE (some e)).countP isConnClose = 1 ∧
    (done a c dE (some e)).countP isConnAck = 1 ∧
    (done a c dE (some e)).countP isEmitError =
      (if dE.isSome then 1 else 0) + 1 ∧
    (done a c dE (some e)).drop ((done a c dE (some e)).length - 2) =
      [.connClose, .emitError e] := by
  cases dE <;>
    simp [done, isConnClose, isConnAck, isEmitError]

/-- C9: every inbound upstream message produces exactly one downstream
publish call with the identical `(topic, message, options)` triple, and the
result is independent of the bridge's hook registry. -/
theorem c9_forward_message (b b2 : Bridge) (t m : String) (o : Nat) :
    onMessage b t m o = [.connPublish t m o] ∧
    onMessage b t m o = onMessage b2 t m o ∧
    (onMessage b t m o).countP isConnPublish = 1 := by
  refine ⟨rfl, rfl, ?_⟩
  simp [onMessage, isConnPublish]

/-- A pending `next(err)` with a present error invokes `cb(err)` once and
stops, whatever hooks remain. -/
theorem exec_some (pend : List Hook) (c : Ctx) (e : Err) :
    exec pend c [some e] = ⟨c, [some e], []⟩ := by
  cases pend <;> simp [exec]

/-- Running the continuation machinery over a chain of well-behaved hooks
(each calls `next` exactly once) numbered from `k` agrees with the spec's
driving loop: the completion callback fires exactly once with the first
error (or none), the hooks invoked are exactly the consecutive prefix up to
and including the erroring hook, in order, and the context is threaded. -/
theorem exec_toHooks (fs : List (Ctx → Ctx × Option Err)) (k : Nat) (c : Ctx) :
    exec (toHooks k fs) c [none] =
      ⟨(specChain fs c).1, [(specChain fs c).2.1], List.range' k (specChain fs c).2.2⟩ := by
  induction fs generalizing k c with
  | nil => simp [toHooks, specChain, exec]
  | cons f fs ih =>
    show exec (toHook k f :: toHooks (k + 1) fs) c [none] = _
    rw [exec]
    cases he : (f c).2 with
    | some e =>
      simp [toHook, specChain, he, exec_some, List.range'_succ]
    | none =>
      simp [toHook, specChain, he, ih, List.range'_succ]

/-- C4: the nested-continuation hook runner of `trigger` refines the spec's
driving loop on every chain of well-behaved hooks: hooks run strictly in
registration order on the shared (threaded) context, a hook that supplies an
error stops the chain immediately — the invoked hooks are exactly
`0, 1, …, n-1` where hook `n-1` is the erroring one (or the chain's end) —
and the run completes, exactly once, with that error. -/
theorem c4_chain_refines_driving_loop
    (fs : List (Ctx → Ctx × Option Err)) (c : Ctx) :
    (trigger (toHooks 0 fs) c).cbs = [(specChain fs c).2.1] ∧
    (trigger (toHooks 0 fs) c).inv = List.range (specChain fs c).2.2 ∧
    (trigger (toHooks 0 fs) c).ctx = (specChain fs c).1 := by
  cases fs with
  | nil => simp [toHooks, trigger, specChain]
  | cons f fs =>
    rw [List.range_eq_range']
    cases he : (f c).2 with
    | some e =>
      simp [trigger, toHooks, toHook, specChain, he, exec_some, List.range'_succ]
    | none =>
      simp [trigger, toHooks, toHook, specChain, he, exec_toHooks, List.range'_succ]

/-- C7: an action with no registered hooks completes its pipeline
successfully — the callback fires exactly once, with no error — and never
synchronously: completion is deferred by exactly one scheduling yield
(`process.nextTick`), with no hook invoked and the context untouched. -/
theorem c7_no_hooks_one_tick (b : Bridge) (a : Action) (c : Ctx)
    (h : b.hooks a = []) :
    triggerOn b a c = ⟨1, c, [none], []⟩ := by
  simp [triggerOn, h, trigger]

/-- C7 witness: the empty registry at a concrete input. -/
theorem c7_no_hooks_one_tick_witness :
    triggerOn ⟨fun _ => []⟩ .connect ctx0 = ⟨1, ctx0, [none], []⟩ :=
  c7_no_hooks_one_tick ⟨fun _ => []⟩ .connect ctx0 rfl

/-- A hook that invokes `next()` twice, with no error and no mutation. -/
def dblHook : Hook := ⟨0, fun c => (c, [none, none])⟩

/-- C8, counterexample: `next` is not single-use.  With a single registered
hook that invokes `next()` twice, the run's completion callback is invoked
twice — the claim that `cb` cannot fire more than once is false. -/
theorem c8_counterexample :
    ¬ ((trigger [dblHook] ctx0).cbs.length ≤ 1) := by
  simp [trigger, dblHook, exec]

/-- The hooks invoked by the continuation machinery are always a sublist (in
order, without repetition) of the pending hooks: the position counter only
ever advances, so no hook is invoked twice even when `next` is re-invoked. -/
theorem exec_inv_sublist (pend : List Hook) (c : Ctx) (calls : List (Option Err)) :
    (exec pend c calls).inv.Sublist (pend.map Hook.id) := by
  induction pend, c, calls using exec.induct with
  | case1 => simp [exec]
  | case2 c e es ih => simpa [exec] using ih
  | case3 c h rest es err ih => simpa [exec] using ih
  | case4 c h rest es ih =>
    rw [exec]
    simpa using ih.cons₂ h.id

/-- C8, amended: invoking `next` more than once from the same hook is not
guarded against — each extra invocation past the end of the chain invokes the
run's completion callback again (so `cb` can fire more than once) — but it
never re-invokes a hook: the invocation list is always an ordered,
repetition-free sublist of the registered hooks' ids. -/
theorem c8_next_not_single_use :
    (∀ (hooks : List Hook) (c : Ctx),
      ((trigger hooks c).inv).Sublist (hooks.map Hook.id)) ∧
    (trigger [dblHook] ctx0).cbs.length = 2 := by
  constructor
  · intro hooks c
    cases hooks with
    | nil => simp [trigger]
    | cons h rest =>
      simpa [trigger] using (exec_inv_sublist rest (h.run c).1 (h.run c).2).cons₂ h.id
  · simp [trigger, dblHook, exec]

/-- C10: for every action with at least one registered hook, the first hook
is invoked synchronously within the triggering call (zero scheduling yields,
and it heads the invocation list); and when every hook in the chain invokes
`next` synchronously and exactly once, the completion callback also fires,
exactly once, within the triggering call — completion is not always
deferred. -/
theorem c10_nonempty_chain_synchronous :
    (∀ (h : Hook) (hs : List Hook) (c : Ctx),
      (trigger (h :: hs) c).ticks = 0 ∧
      (trigger (h :: hs) c).inv.head? = some h.id) ∧
    (∀ (f : Ctx → Ctx × Option Err) (fs : List (Ctx → Ctx × Option Err)) (c : Ctx),
      (trigger (toHooks 0 (f :: fs)) c).ticks = 0 ∧
      (trigger (toHooks 0 (f :: fs)) c).cbs.length = 1) := by
  constructor
  · intro h hs c
    exact ⟨rfl, rfl⟩
  · intro f fs c
    refine ⟨rfl, ?_⟩
    cases he : (f c).2 with
    | some e => simp [trigger, toHooks, toHook, he, exec_some]
    | none => simp [trigger, toHooks, toHook, he, exec_toHooks]

end PubsubBridge
